import Mathlib

/-!
Shallow embedding of `src/scripts/update-list.js` (the Awesome Starlight
reconciliation & validation pipeline).  JS strings are modeled as Lean
`String` (a structure wrapping `List Char`); the JS string operations the
script uses are implemented on the underlying character lists.  Network
effects (fetch outcomes, the categorization service) are passed in as
explicit parameters, and the mutable `processedUrls` memo is threaded as
explicit state.
-/

namespace UpdateList

/-- ASCII lower-casing of one character: the effect of JS
`String.prototype.toLowerCase` on the ASCII range this program works with. -/
def lowerChar (c : Char) : Char :=
  if h : 65 ≤ c.toNat ∧ c.toNat ≤ 90 then
    Char.ofNatAux (c.toNat + 32) (Or.inl (by omega))
  else c

/-- `toLowerCase` on a character list. -/
def lowerList (l : List Char) : List Char := l.map lowerChar

/-- JS `s.toLowerCase()`. -/
def toLowerS (s : String) : String := ⟨lowerList s.data⟩

/-- Contiguous-substring test on character lists. -/
def isInfixOfL : List Char → List Char → Bool
  | sub, [] => sub.isEmpty
  | sub, c :: rest => sub.isPrefixOf (c :: rest) || isInfixOfL sub rest

/-- JS `s.includes(sub)` : substring containment. -/
def includesS (s sub : String) : Bool := isInfixOfL sub.data s.data

/-- JS `s.startsWith(p)`. -/
def startsWithS (s p : String) : Bool := p.data.isPrefixOf s.data

/-- JS `s.trim()` on a character list (whitespace stripped from both ends). -/
def trimList (l : List Char) : List Char :=
  ((l.dropWhile Char.isWhitespace).reverse.dropWhile Char.isWhitespace).reverse

/-- JS `s.trim()`. -/
def jsTrim (s : String) : String := ⟨trimList s.data⟩

/-- One left-to-right pass removing every occurrence of any of the given
patterns (earlier patterns tried first at each position), i.e. the effect of
a JS global `replace` with `""` for an alternation regex.  `fuel` bounds the
scan; it is instantiated with the list length. -/
def removePatternsAux (pats : List (List Char)) : Nat → List Char → List Char
  | 0, l => l
  | _ + 1, [] => []
  | fuel + 1, c :: rest =>
    match pats.find? (fun p => !p.isEmpty && p.isPrefixOf (c :: rest)) with
    | some p => removePatternsAux pats fuel ((c :: rest).drop p.length)
    | none => c :: removePatternsAux pats fuel rest

/-- JS `s.replace(/pat1|pat2|.../g, "")` on a character list. -/
def removePatterns (pats : List (List Char)) (l : List Char) : List Char :=
  removePatternsAux pats l.length l

/-- JS `s.replace(/\/$/, "")` : strip a single trailing slash. -/
def stripTrailingSlash (l : List Char) : List Char :=
  match l.reverse with
  | c :: rest => if c = '/' then rest.reverse else l
  | [] => l

/-- Does the string end in two consecutive slashes?  (The boundary at which
a single `replace(/\/$/, "")` stops being idempotent.) -/
def endsDoubleSlashL (l : List Char) : Bool :=
  match l.reverse with
  | c1 :: c2 :: _ => c1 == '/' && c2 == '/'
  | _ => false

/-- `endsDoubleSlashL` on `String`. -/
def endsWithDoubleSlash (s : String) : Bool := endsDoubleSlashL s.data

/-- The URL normalization used by `isDuplicate`:
`url.toLowerCase().replace(/\/$/, "")`. -/
def normalizeUrlList (l : List Char) : List Char :=
  stripTrailingSlash (lowerList l)

/-- The URL normalization used by `isDuplicate`, on `String`. -/
def normalizeUrl (s : String) : String := ⟨normalizeUrlList s.data⟩

/-- The literal `github.com/` searched for by the repo-matching regexes. -/
def githubNeedle : List Char := "github.com/".data

/-- Try the regex `github\.com\/([^/]+)\/([^/#?]+)` at the head of `l`,
returning the two capture groups (owner, repo). -/
def tryGitHubAt (l : List Char) : Option (List Char × List Char) :=
  if githubNeedle.isPrefixOf l then
    let rest := l.drop githubNeedle.length
    let owner := rest.takeWhile (fun c => c != '/')
    if owner.isEmpty then none
    else
      match rest.drop owner.length with
      | '/' :: rest2 =>
        let repo := rest2.takeWhile (fun c => c != '/' && c != '#' && c != '?')
        if repo.isEmpty then none else some (owner, repo)
      | _ => none
  else none

/-- Scan for the first position where the GitHub repo regex matches. -/
def matchGitHubAux : Nat → List Char → Option (List Char × List Char)
  | 0, _ => none
  | _ + 1, [] => none
  | fuel + 1, c :: rest =>
    match tryGitHubAt (c :: rest) with
    | some r => some r
    | none => matchGitHubAux fuel rest

/-- JS `url.match(/github\.com\/([^/]+)\/([^/#?]+)/)`, as the pair of
captured (owner, repo) or `none` when the regex does not match. -/
def matchGitHubRepo (s : String) : Option (String × String) :=
  (matchGitHubAux s.data.length s.data).map (fun p => (⟨p.1⟩, ⟨p.2⟩))

/-- `extractRepoSlug(url)` : `url?.match(/github\.com\/[^/]+\/([^/#?]+)/)?.[1] || ""`. -/
def extractRepoSlug (url : Option String) : String :=
  match url with
  | none => ""
  | some u =>
    match matchGitHubRepo u with
    | some (_, repo) => repo
    | none => ""

/-- JS truthiness of a possibly-undefined string value. -/
def truthy : Option String → Bool
  | none => false
  | some s => s != ""

/-- JS `a || b` on possibly-undefined strings. -/
def jsOr (a b : Option String) : Option String := if truthy a then a else b

/-- JS `a || b || ""` on possibly-undefined strings. -/
def jsOrEmpty (a b : Option String) : String := (jsOr a b).getD ""

-- ------------------------------------------------------------------
-- Data model
-- ------------------------------------------------------------------

/-- The closed category enumeration of the catalog. -/
inductive Category
  | plugin
  | theme
  | tool
  | video
  | article
  | showcase
deriving DecidableEq, Repr

/-- A candidate / canonical record.  All fields are optional because the
script builds records of varying shapes (official items carry `url`, raw
NPM package items carry `homepage`, `repo` is never set but is read by
`isLikelySameTheme`). -/
structure Item where
  title : Option String := none
  url : Option String := none
  homepage : Option String := none
  repo : Option String := none
  description : Option String := none
deriving DecidableEq, Repr

/-- An NPM package after field extraction in `fetchSupplementaryNPM`. -/
structure Package where
  name : String
  description : String
  homepage : Option String
  keywords : List String
deriving DecidableEq, Repr

/-- A raw NPM search result (`pkg.package` in the script). -/
structure RawPkg where
  name : String
  description : Option String
  homepage : Option String
  repository : Option String
  keywords : Option (List String)
deriving DecidableEq, Repr

/-- The per-category catalog (`this.officialData`). -/
structure OfficialData where
  plugins : List Item
  themes : List Item
  tools : List Item
  videos : List Item
  articles : List Item
  showcases : List Item
deriving DecidableEq, Repr

/-- Result of `categorizeSupplementary` / `fallbackCategorization`. -/
structure Categorized where
  plugins : List Item
  themes : List Item
  tools : List Item
deriving DecidableEq, Repr

-- ------------------------------------------------------------------
-- Matcher
-- ------------------------------------------------------------------

/-- `isDuplicate(newItem, officialItem)` from the script: equal non-empty
normalized URLs, or equal extracted GitHub repo names. -/
def isDuplicate (newItem officialItem : Item) : Bool :=
  let newUrl := normalizeUrl (jsOrEmpty newItem.url newItem.homepage)
  let officialUrl := normalizeUrl (officialItem.url.getD "")
  if newUrl != "" && officialUrl != "" && newUrl == officialUrl then true
  else
    let newRepo := (jsOr newItem.url newItem.homepage).bind
      (fun u => (matchGitHubRepo u).map Prod.snd)
    let officialRepo := officialItem.url.bind
      (fun u => (matchGitHubRepo u).map Prod.snd)
    match newRepo, officialRepo with
    | some r1, some r2 => r1 == r2
    | _, _ => false

/-- `isSameTitle(newItem, officialItem)` : trimmed, case-folded titles equal
and non-empty. -/
def isSameTitle (newItem officialItem : Item) : Bool :=
  let normalize := fun (t : Option String) => toLowerS (jsTrim (t.getD ""))
  normalize newItem.title != "" &&
    normalize newItem.title == normalize officialItem.title

/-- `normalizeThemeKey(input)` : the chained global replaces and character
filters of the script. -/
def normalizeThemeKey (input : Option String) : String :=
  let l0 := lowerList (input.getD "").data
  let l1 := removePatterns
    ["https://www.".data, "https://".data, "http://www.".data, "http://".data] l0
  let l2 := removePatterns ["starlight".data] l1
  let l3 := removePatterns ["theme".data] l2
  let l4 := removePatterns ["astro".data] l3
  let l5 := removePatterns ["docs".data, "doc".data] l4
  let l6 := l5.filter (fun c => !(c.isWhitespace || c == '.' || c == '_' || c == '-'))
  let l7 := l6.filter (fun c =>
    decide (97 ≤ c.toNat ∧ c.toNat ≤ 122) || decide (48 ≤ c.toNat ∧ c.toNat ≤ 57))
  ⟨trimList l7⟩

/-- The inner `keysEqual` of `isLikelySameTheme` : both keys non-empty and
equal or one contained in the other. -/
def keysEqual (x y : String) : Bool :=
  x != "" && (y != "" && (x == y || isInfixOfL y.data x.data || isInfixOfL x.data y.data))

/-- `isLikelySameTheme(a, b)` from the script. -/
def isLikelySameTheme (a b : Item) : Bool :=
  let keyA := normalizeThemeKey a.title
  let keyB := normalizeThemeKey b.title
  let repoKeyA := normalizeThemeKey (some (extractRepoSlug (jsOr a.url (jsOr a.homepage a.repo))))
  let repoKeyB := normalizeThemeKey (some (extractRepoSlug (jsOr b.url (jsOr b.homepage b.repo))))
  keysEqual keyA keyB || keysEqual keyA repoKeyB || keysEqual keyB repoKeyA ||
    (repoKeyA != "" && (repoKeyB != "" && keysEqual repoKeyA repoKeyB))

-- ------------------------------------------------------------------
-- Validator
-- ------------------------------------------------------------------

/-- The JSON body returned by the GitHub repository API, as far as the
script reads it. -/
structure RepoJson where
  fork : Bool
deriving DecidableEq, Repr

/-- Outcome of one `fetch` of the GitHub repository API: either the fetch /
JSON parse threw, or a status with the parsed body (`none` models a body
whose JSON parse throws, which the script's `catch` turns into `false`). -/
inductive FetchOutcome
  | thrown
  | response (status : Nat) (body : Option RepoJson)
deriving DecidableEq, Repr

/-- `checkGitHubRepo(url)` : the result policy of the GitHub strategy.
`general` is the `checkGeneralUrl` collaborator used as fallback when the
URL does not match the repo regex. -/
def checkGitHubRepo (url : String) (outcome : FetchOutcome) (general : String → Bool) : Bool :=
  match matchGitHubRepo url with
  | none => general url
  | some _ =>
    match outcome with
    | .thrown => false
    | .response status body =>
      if status = 200 then
        match body with
        | none => false
        | some repoData => if repoData.fork then false else true
      else if status = 404 then false
      else if status = 403 then true
      else false

/-- `validateUrl(url)` with the `processedUrls` memo passed as explicit
state.  `gh` gives the GitHub API outcome per URL and `general` the
`checkGeneralUrl` result per URL.  Returns
(result, new memo state, whether an underlying network check was issued). -/
def validateUrl (gh : String → FetchOutcome) (general : String → Bool)
    (processedUrls : List String) (url : Option String) : Bool × List String × Bool :=
  if truthy url = false then (false, processedUrls, false)
  else
    let u := jsTrim (url.getD "")
    if processedUrls.contains u then (true, processedUrls, false)
    else
      let processed := processedUrls ++ [u]
      if includesS u "github.com" then (checkGitHubRepo u (gh u) general, processed, true)
      else (general u, processed, true)

-- ------------------------------------------------------------------
-- Classifier
-- ------------------------------------------------------------------

/-- The item record pushed for a categorized NPM package:
`{ title: pkg.name, url: pkg.homepage, description: pkg.description }`. -/
def npmItem (pkg : Package) : Item :=
  { title := some pkg.name, url := pkg.homepage, description := some pkg.description }

/-- The per-package decision of `fallbackCategorization`. -/
def fallbackCategory (pkg : Package) : Category :=
  let text := toLowerS (pkg.name ++ " " ++ pkg.description)
  if includesS text "theme" || includesS pkg.name "theme" then .theme
  else if includesS text "vscode" || includesS text "cli" || includesS text "generator" then .tool
  else .plugin

/-- `fallbackCategorization(packages)` : push each package into the list
chosen by the keyword heuristic, preserving order. -/
def fallbackCategorization (packages : List Package) : Categorized :=
  { plugins := (packages.filter (fun p => fallbackCategory p == Category.plugin)).map npmItem
  , themes := (packages.filter (fun p => fallbackCategory p == Category.theme)).map npmItem
  , tools := (packages.filter (fun p => fallbackCategory p == Category.tool)).map npmItem }

/-- `categorizeSupplementary(packages)`.  The categorization service is
modeled by `ai` : `.error` is any thrown failure (missing token, API error,
JSON.parse throw), `.ok none` a response containing no JSON object (both
fall back), and `.ok (some f)` the parsed index-to-category object. -/
def categorizeSupplementary (packages : List Package)
    (ai : Except Unit (Option (Nat → Option String))) : Categorized :=
  if packages.isEmpty then ⟨[], [], []⟩
  else
    match ai with
    | .error _ => fallbackCategorization packages
    | .ok none => fallbackCategorization packages
    | .ok (some categorization) =>
      let step := fun (acc : Categorized) (ip : Nat × Package) =>
        let category := match categorization ip.1 with
          | some s => if s = "" then "plugin" else s
          | none => "plugin"
        let item := npmItem ip.2
        if includesS category "theme" then { acc with themes := acc.themes ++ [item] }
        else if includesS category "tool" then { acc with tools := acc.tools ++ [item] }
        else { acc with plugins := acc.plugins ++ [item] }
      packages.enum.foldl step ⟨[], [], []⟩

-- ------------------------------------------------------------------
-- NPM fetch pipeline
-- ------------------------------------------------------------------

/-- Field extraction for one raw search result. -/
def rawToPackage (raw : RawPkg) : Package :=
  { name := raw.name
  , description := raw.description.getD ""
  , homepage := jsOr raw.homepage raw.repository
  , keywords := raw.keywords.getD [] }

/-- The name filter of `fetchSupplementaryNPM`. -/
def npmNameOk (name : String) : Bool :=
  includesS name "starlight" || startsWithS name "@astrojs/starlight"

/-- JS `Map.set` on an association list: update in place or append. -/
def mapSet (m : List (String × Package)) (k : String) (v : Package) : List (String × Package) :=
  if m.any (fun e => e.1 == k) then m.map (fun e => if e.1 == k then (k, v) else e)
  else m ++ [(k, v)]

/-- `fetchSupplementaryNPM` applied to the concatenated search results:
name filter, then Map-dedup by package name keeping insertion order. -/
def fetchSupplementaryNPM (results : List RawPkg) : List Package :=
  ((results.filter (fun r => npmNameOk r.name)).foldl
    (fun m r => mapSet m r.name (rawToPackage r)) []).map Prod.snd

-- ------------------------------------------------------------------
-- Aggregator
-- ------------------------------------------------------------------

/-- All six category lists flattened, as in `filterSupplementaryPackages`. -/
def allOfficialItems (d : OfficialData) : List Item :=
  d.plugins ++ d.themes ++ d.tools ++ d.videos ++ d.articles ++ d.showcases

/-- JS `keywords.join(" ")`. -/
def joinSpace : List String → String
  | [] => ""
  | [x] => x
  | x :: xs => x ++ " " ++ joinSpace xs

/-- `filterSupplementaryPackages(packages)` : dedup against all official
items, relevance checks, then the link/fork validation (threading the
`processedUrls` memo). -/
def filterSupplementaryPackages (official : OfficialData) (gh : String → FetchOutcome)
    (general : String → Bool) : List Package → List String → List Package × List String
  | [], s => ([], s)
  | pkg :: rest, s =>
    let pkgItem : Item := { url := pkg.homepage }
    if (allOfficialItems official).any (fun off => isDuplicate pkgItem off) then
      filterSupplementaryPackages official gh general rest s
    else
      let text := toLowerS (pkg.name ++ " " ++ pkg.description ++ " " ++ joinSpace pkg.keywords)
      let isOfficialScope := startsWithS pkg.name "@astrojs/"
      let mentionsAstro := includesS text "astro"
      let mentionsStarlight := includesS text "starlight"
      if !isOfficialScope && !mentionsAstro then
        filterSupplementaryPackages official gh general rest s
      else if !mentionsStarlight && !(includesS pkg.name "starlight") then
        filterSupplementaryPackages official gh general rest s
      else
        let v := validateUrl gh general s pkg.homepage
        if v.1 then
          let r := filterSupplementaryPackages official gh general rest v.2.1
          (pkg :: r.1, r.2)
        else filterSupplementaryPackages official gh general rest v.2.1

/-- `sortByPackageName(name)` : trimmed lower-cased title; for a scoped
package `@scope/name` the `name` part. -/
def sortByPackageName (name : Option String) : String :=
  let n := toLowerS (jsTrim (name.getD ""))
  if startsWithS n "@" then
    if n.data.contains '/' then
      ⟨((n.data.dropWhile (fun c => c != '/')).drop 1).takeWhile (fun c => c != '/')⟩
    else n
  else n

/-- Code-point lexicographic order on character lists, modeling
`localeCompare` for the ASCII titles this program sorts. -/
def listCharLe : List Char → List Char → Bool
  | [], _ => true
  | _ :: _, [] => false
  | a :: as, b :: bs =>
    if a.toNat < b.toNat then true
    else if b.toNat < a.toNat then false
    else listCharLe as bs

/-- The comparator of the final per-category sort. -/
def keyLe (a b : Item) : Bool :=
  listCharLe (sortByPackageName a.title).data (sortByPackageName b.title).data

/-- Stable insertion into a sorted list. -/
def insertSorted (le : Item → Item → Bool) (x : Item) : List Item → List Item
  | [] => [x]
  | y :: ys => if le x y then x :: y :: ys else y :: insertSorted le x ys

/-- Stable sort modeling `Array.prototype.sort` (stable per ES2019). -/
def sortItems (le : Item → Item → Bool) : List Item → List Item
  | [] => []
  | x :: xs => insertSorted le x (sortItems le xs)

/-- The validation loop of `fetchAstroShowcase` over the parsed candidate
sites: keep the sites whose `validateUrl` succeeds, threading the memo. -/
def validateShowcaseSites (gh : String → FetchOutcome) (general : String → Bool) :
    List Item → List String → List Item × List String
  | [], s => ([], s)
  | site :: rest, s =>
    let v := validateUrl gh general s site.url
    let r := validateShowcaseSites gh general rest v.2.1
    if v.1 then (site :: r.1, r.2) else r

/-- The showcase merge loop of `collectAllData`: each site is checked
against the current (growing) showcase list. -/
def mergeShowcases (existing newSites : List Item) : List Item :=
  newSites.foldl
    (fun acc site => if acc.any (fun ex => isDuplicate site ex) then acc else acc ++ [site])
    existing

/-- The theme merge step of `collectAllData`: new themes are filtered
against the pre-existing (fixed) theme list, then appended. -/
def mergeNewThemes (existing newItems : List Item) : List Item :=
  existing ++ newItems.filter (fun t =>
    !(existing.any (fun ex => isDuplicate t ex || isSameTitle t ex || isLikelySameTheme t ex)))

/-- The pure core of `collectAllData`, given the successfully fetched
official catalog, the parsed Astro showcase candidates (those `.yml`
entries whose categories include "starlight"), and the raw NPM search
results.  Mirrors the merge and sort steps of the script. -/
def collectCore (official : OfficialData) (astroCandidates : List Item)
    (npmResults : List RawPkg) (ai : Except Unit (Option (Nat → Option String)))
    (gh : String → FetchOutcome) (general : String → Bool) : OfficialData :=
  let astro := validateShowcaseSites gh general astroCandidates []
  let official1 := { official with showcases := mergeShowcases official.showcases astro.1 }
  let packages := fetchSupplementaryNPM npmResults
  let filtered := filterSupplementaryPackages official1 gh general packages astro.2
  let categorized := categorizeSupplementary filtered.1 ai
  let plugins2 := official1.plugins ++ categorized.plugins
  let themes2 := mergeNewThemes official1.themes categorized.themes
  let tools2 := official1.tools ++ categorized.tools
  { plugins := sortItems keyLe plugins2
  , themes := sortItems keyLe themes2
  , tools := sortItems keyLe tools2
  , videos := sortItems keyLe official1.videos
  , articles := sortItems keyLe official1.articles
  , showcases := sortItems keyLe official1.showcases }

/-- `collectAllData` with each origin fetch as an explicit outcome.
`fetchOfficialSources` and `fetchSupplementaryNPM` have no error recovery,
so their failures propagate (and `run()` then exits non-zero);
`fetchAstroShowcase` catches its failure and contributes zero items. -/
def collectAllData (officialFetch : Except String OfficialData)
    (astroFetch : Except String (List Item)) (npmFetch : Except String (List RawPkg))
    (ai : Except Unit (Option (Nat → Option String)))
    (gh : String → FetchOutcome) (general : String → Bool) : Except String OfficialData := do
  let official ← officialFetch
  let astroCandidates := match astroFetch with
    | .ok c => c
    | .error _ => []
  let npmResults ← npmFetch
  pure (collectCore official astroCandidates npmResults ai gh general)

/-- `run()` : `collectAllData` followed by the README update; any thrown
error is caught and the process exits non-zero.  `true` means the run
completed, `false` that it aborted. -/
def runCompletes (result : Except String OfficialData) : Bool :=
  match result with
  | .ok _ => true
  | .error _ => false

/-- Observation: does a list contain two distinct entries that `isDuplicate`
judges duplicates? -/
def existsDupPair : List Item → Bool
  | [] => false
  | x :: xs => xs.any (fun y => x != y && isDuplicate x y) || existsDupPair xs

-- ------------------------------------------------------------------
-- Supporting lemmas
-- ------------------------------------------------------------------

theorem toNat_ofNatAux (n : Nat) (h : n.isValidChar) : (Char.ofNatAux n h).toNat = n := rfl

theorem lowerChar_idem (c : Char) : lowerChar (lowerChar c) = lowerChar c := by
  unfold lowerChar
  by_cases h : 65 ≤ c.toNat ∧ c.toNat ≤ 90
  · rw [dif_pos h, dif_neg]
    rw [toNat_ofNatAux]
    omega
  · rw [dif_neg h, dif_neg h]

theorem lowerChar_slash : lowerChar '/' = '/' := by decide

theorem lowerChar_eq_slash_iff (c : Char) : lowerChar c = '/' ↔ c = '/' := by
  constructor
  · intro he
    unfold lowerChar at he
    by_cases h : 65 ≤ c.toNat ∧ c.toNat ≤ 90
    · rw [dif_pos h] at he
      have h47 : (Char.ofNatAux (c.toNat + 32) (Or.inl (by omega))).toNat = c.toNat + 32 :=
        toNat_ofNatAux _ _
      rw [he] at h47
      have : ('/').toNat = 47 := rfl
      omega
    · rwa [dif_neg h] at he
  · intro he
    rw [he]
    exact lowerChar_slash

theorem lowerList_idem (l : List Char) : lowerList (lowerList l) = lowerList l := by
  induction l with
  | nil => rfl
  | cons c t ih =>
    simp only [lowerList, List.map_cons] at ih ⊢
    rw [lowerChar_idem]
    exact congrArg _ ih

theorem lowerList_reverse (l : List Char) : (lowerList l).reverse = lowerList l.reverse := by
  simp [lowerList, List.map_reverse]

theorem stripTrailingSlash_of_head {l : List Char} {c : Char} {t : List Char}
    (hrev : l.reverse = c :: t) (hc : c ≠ '/') : stripTrailingSlash l = l := by
  unfold stripTrailingSlash
  rw [hrev]
  simp [hc]

theorem stripTrailingSlash_of_slash {l t : List Char}
    (hrev : l.reverse = '/' :: t) : stripTrailingSlash l = t.reverse := by
  unfold stripTrailingSlash
  rw [hrev]
  simp

/-- `normalizeUrl` is idempotent on the character list level whenever the
input does not end in two consecutive slashes. -/
theorem normalizeUrlList_idem (l : List Char) (h : endsDoubleSlashL l = false) :
    normalizeUrlList (normalizeUrlList l) = normalizeUrlList l := by
  rcases hrev : l.reverse with _ | ⟨c, t⟩
  · have hl : l = [] := by
      have := congrArg List.reverse hrev
      simpa using this
    subst hl
    rfl
  · have mrev : (lowerList l).reverse = lowerChar c :: lowerList t := by
      rw [lowerList_reverse, hrev]
      rfl
    by_cases hc : c = '/'
    · subst hc
      rw [lowerChar_slash] at mrev
      have n1 : normalizeUrlList l = (lowerList t).reverse :=
        stripTrailingSlash_of_slash mrev
      rw [n1, lowerList_reverse t]
      show stripTrailingSlash (lowerList (lowerList t.reverse)) = lowerList t.reverse
      rw [lowerList_idem]
      rcases t with _ | ⟨c2, t2⟩
      · rfl
      · have hc2 : c2 ≠ '/' := by
          intro hc2
          unfold endsDoubleSlashL at h
          rw [hrev, hc2] at h
          simp at h
        have hrev2 : (lowerList (c2 :: t2).reverse).reverse = lowerChar c2 :: lowerList t2 := by
          rw [← lowerList_reverse, List.reverse_reverse]
          rfl
        exact stripTrailingSlash_of_head hrev2
          (fun hbad => hc2 ((lowerChar_eq_slash_iff c2).mp hbad))
    · have hlc : lowerChar c ≠ '/' := fun hbad => hc ((lowerChar_eq_slash_iff c).mp hbad)
      have n1 : normalizeUrlList l = lowerList l :=
        stripTrailingSlash_of_head mrev hlc
      rw [n1]
      show stripTrailingSlash (lowerList (lowerList l)) = lowerList l
      rw [lowerList_idem]
      exact stripTrailingSlash_of_head mrev hlc

theorem isInfixOfL_iff (sub l : List Char) : isInfixOfL sub l = true ↔ sub <:+: l := by
  induction l with
  | nil =>
    simp [isInfixOfL, List.isEmpty_iff]
  | cons c rest ih =>
    simp only [isInfixOfL, Bool.or_eq_true, List.isPrefixOf_iff_prefix, ih,
      List.infix_cons_iff]

theorem includesS_iff (s sub : String) : includesS s sub = true ↔ sub.data <:+: s.data :=
  isInfixOfL_iff sub.data s.data

theorem data_append (a b : String) : (a ++ b).data = a.data ++ b.data := rfl

/-- If the (case-sensitive) package name contains `"theme"`, then so does
the lower-cased name-plus-description text. -/
theorem theme_in_name_to_text (pkg : Package)
    (h : includesS pkg.name "theme" = true) :
    includesS (toLowerS (pkg.name ++ " " ++ pkg.description)) "theme" = true := by
  rw [includesS_iff] at h ⊢
  have h1 : "theme".data.map lowerChar = "theme".data := by decide
  have h2 : pkg.name.data <:+: (pkg.name ++ " " ++ pkg.description).data := by
    rw [data_append, data_append, List.append_assoc]
    exact (List.prefix_append _ _).isInfix
  have h3 := (h.map lowerChar).trans (h2.map lowerChar)
  rw [h1] at h3
  exact h3

-- ------------------------------------------------------------------
-- Claim theorems
-- ------------------------------------------------------------------

/-- C6 counterexample: the URL normalization of `isDuplicate` (lower-case,
strip a single trailing slash) is NOT idempotent on every string: a URL
ending in two slashes loses one slash per application. -/
theorem normalizeUrl_not_idempotent :
    normalizeUrl (normalizeUrl "https://example.com//") ≠ normalizeUrl "https://example.com//" := by
  decide

/-- C6 (amended): the URL normalization used by `isDuplicate` is idempotent
for every string that does not end in two consecutive slashes. -/
theorem normalizeUrl_idempotent (u : String) (h : endsWithDoubleSlash u = false) :
    normalizeUrl (normalizeUrl u) = normalizeUrl u :=
  congrArg String.mk (normalizeUrlList_idem u.data h)

/-- Witness for `normalizeUrl_idempotent` at a concrete URL. -/
theorem normalizeUrl_idempotent_witness :
    normalizeUrl (normalizeUrl "https://example.com/path/") = normalizeUrl "https://example.com/path/" :=
  normalizeUrl_idempotent "https://example.com/path/" (by decide)

/-- C9: `isLikelySameTheme` holds for the item titled "Starlight Theme
Galaxy" against the item whose URL is a GitHub repo ending in
`/starlight-galaxy-theme`, and both keys reduce to `"galaxy"`. -/
theorem isLikelySameTheme_galaxy :
    normalizeThemeKey (some "Starlight Theme Galaxy") = "galaxy"
  ∧ normalizeThemeKey (some (extractRepoSlug (some "https://github.com/user/starlight-galaxy-theme"))) = "galaxy"
  ∧ isLikelySameTheme { title := some "Starlight Theme Galaxy" }
      { url := some "https://github.com/user/starlight-galaxy-theme" } = true := by
  refine ⟨by decide, by decide, by decide⟩

/-- C10: for a missing or empty URL, `validateUrl` returns `false`
immediately: no network check is issued and the `processedUrls` memo is
unchanged. -/
theorem validateUrl_empty_input_inert :
    ∀ (gh : String → FetchOutcome) (general : String → Bool) (s : List String),
      validateUrl gh general s none = (false, s, false)
    ∧ validateUrl gh general s (some "") = (false, s, false) := by
  intro gh general s
  exact ⟨rfl, rfl⟩

/-- C5: for a URL matching the GitHub repo regex, `checkGitHubRepo` returns
`false` on 200-with-fork, `true` on 200-non-fork, `false` on a 200 body
whose JSON parse fails, `false` on 404, `true` on 403, `false` on any other
status and `false` when the fetch throws. -/
theorem checkGitHubRepo_policy (url : String) (general : String → Bool)
    (h : (matchGitHubRepo url).isSome = true) :
    checkGitHubRepo url (.response 200 (some ⟨true⟩)) general = false
  ∧ checkGitHubRepo url (.response 200 (some ⟨false⟩)) general = true
  ∧ checkGitHubRepo url (.response 200 none) general = false
  ∧ (∀ body, checkGitHubRepo url (.response 404 body) general = false)
  ∧ (∀ body, checkGitHubRepo url (.response 403 body) general = true)
  ∧ (∀ status body, status ≠ 200 → status ≠ 403 →
      checkGitHubRepo url (.response status body) general = false)
  ∧ checkGitHubRepo url .thrown general = false := by
  obtain ⟨p, hp⟩ := Option.isSome_iff_exists.mp h
  refine ⟨?_, ?_, ?_, ?_, ?_, ?_, ?_⟩
  · simp [checkGitHubRepo, hp]
  · simp [checkGitHubRepo, hp]
  · simp [checkGitHubRepo, hp]
  · intro body
    simp [checkGitHubRepo, hp]
  · intro body
    simp [checkGitHubRepo, hp]
  · intro status body h200 h403
    simp only [checkGitHubRepo, hp]
    rw [if_neg h200, if_neg h403]
    split <;> rfl
  · simp [checkGitHubRepo, hp]

/-- Witness for `checkGitHubRepo_policy` at a concrete repository URL. -/
theorem checkGitHubRepo_policy_witness :
    checkGitHubRepo "https://github.com/withastro/starlight" (.response 200 (some ⟨true⟩))
      (fun _ => false) = false
  ∧ checkGitHubRepo "https://github.com/withastro/starlight" (.response 403 none)
      (fun _ => false) = true :=
  ⟨(checkGitHubRepo_policy "https://github.com/withastro/starlight" (fun _ => false) (by decide)).1,
   ((checkGitHubRepo_policy "https://github.com/withastro/starlight" (fun _ => false) (by decide)).2.2.2.2.1) none⟩

/-- C3 counterexample: a package whose description contains the literal
"VS Code extension" (with spaces) is assigned `plugin`, not `tool`:
the heuristic looks for the single word "vscode", which "vs code" does not
contain. -/
theorem fallbackCategorization_vsCode_not_tool :
    includesS "VS Code extension for Starlight i18n" "VS Code extension" = true
  ∧ (fallbackCategorization [⟨"starlight-i18n", "VS Code extension for Starlight i18n", none, []⟩]).tools = []
  ∧ (fallbackCategorization [⟨"starlight-i18n", "VS Code extension for Starlight i18n", none, []⟩]).plugins
      = [npmItem ⟨"starlight-i18n", "VS Code extension for Starlight i18n", none, []⟩] := by
  refine ⟨by decide, by decide, by decide⟩

/-- C3 (amended): the fallback heuristic assigns `theme` to a package named
`starlight-theme-nova`; `tool` to a package whose lower-cased
name-plus-description contains the single word "vscode" (e.g. a "VSCode
extension") but not "theme"; and `plugin` when that text contains none of
"theme", "vscode", "cli", "generator". -/
theorem fallbackCategory_rules (pkg : Package) :
    (pkg.name = "starlight-theme-nova" → fallbackCategory pkg = Category.theme)
  ∧ (includesS (toLowerS (pkg.name ++ " " ++ pkg.description)) "vscode" = true →
     includesS (toLowerS (pkg.name ++ " " ++ pkg.description)) "theme" = false →
     fallbackCategory pkg = Category.tool)
  ∧ (includesS (toLowerS (pkg.name ++ " " ++ pkg.description)) "theme" = false →
     includesS (toLowerS (pkg.name ++ " " ++ pkg.description)) "vscode" = false →
     includesS (toLowerS (pkg.name ++ " " ++ pkg.description)) "cli" = false →
     includesS (toLowerS (pkg.name ++ " " ++ pkg.description)) "generator" = false →
     fallbackCategory pkg = Category.plugin) := by
  refine ⟨?_, ?_, ?_⟩
  · intro hname
    have hn : includesS pkg.name "theme" = true := by
      rw [hname]
      decide
    simp [fallbackCategory, hn]
  · intro hvs htheme
    have hnf : includesS pkg.name "theme" = false := by
      cases hn : includesS pkg.name "theme" with
      | false => rfl
      | true => rw [theme_in_name_to_text pkg hn] at htheme; cases htheme
    simp [fallbackCategory, htheme, hnf, hvs]
  · intro htheme hvs hcli hgen
    have hnf : includesS pkg.name "theme" = false := by
      cases hn : includesS pkg.name "theme" with
      | false => rfl
      | true => rw [theme_in_name_to_text pkg hn] at htheme; cases htheme
    simp [fallbackCategory, htheme, hnf, hvs, hcli, hgen]

/-- Witness for `fallbackCategory_rules` at concrete packages. -/
theorem fallbackCategory_rules_witness :
    fallbackCategory ⟨"starlight-theme-nova", "", none, []⟩ = Category.theme
  ∧ fallbackCategory ⟨"starlight-ext", "VSCode extension", none, []⟩ = Category.tool
  ∧ fallbackCategory ⟨"starlight-blog", "A blog integration", none, []⟩ = Category.plugin :=
  ⟨(fallbackCategory_rules _).1 rfl,
   (fallbackCategory_rules _).2.1 (by decide) (by decide),
   (fallbackCategory_rules _).2.2 (by decide) (by decide) (by decide) (by decide)⟩

/-- C7 counterexample: an item with no url and no homepage is NOT judged a
duplicate of itself (both the URL and the repo check fail on empty data). -/
theorem isDuplicate_not_reflexive :
    isDuplicate { title := some "Example" } { title := some "Example" } = false := by
  decide

/-- C7 (amended): `isDuplicate(a, a)` holds for every item whose `url`
field is present and normalizes to a non-empty string. -/
theorem isDuplicate_refl_of_url (a : Item) (u : String) (ha : a.url = some u)
    (hn : normalizeUrl u ≠ "") : isDuplicate a a = true := by
  have hu : u ≠ "" := by
    intro he
    apply hn
    rw [he]
    rfl
  simp [isDuplicate, ha, jsOrEmpty, jsOr, truthy, hu, hn]

/-- Witness for `isDuplicate_refl_of_url`. -/
theorem isDuplicate_refl_witness :
    isDuplicate { url := some "https://github.com/x/y" } { url := some "https://github.com/x/y" } = true :=
  isDuplicate_refl_of_url { url := some "https://github.com/x/y" } "https://github.com/x/y"
    rfl (by decide)

/-- The repo-name comparison of `isDuplicate` is symmetric in its two
optional arguments. -/
theorem repoMatchComm (p q : Option String) :
    (match p, q with
     | some r1, some r2 => r1 == r2
     | _, _ => false)
    = (match q, p with
       | some r2, some r1 => r2 == r1
       | _, _ => false) := by
  cases p <;> cases q <;> simp [eq_comm]

/-- C8 counterexample: `isDuplicate` is not symmetric: the first argument
may match by `homepage`, but the second argument's `homepage` is ignored. -/
theorem isDuplicate_not_symmetric :
    isDuplicate { homepage := some "https://github.com/x/y" } { url := some "https://github.com/x/y" } = true
  ∧ isDuplicate { url := some "https://github.com/x/y" } { homepage := some "https://github.com/x/y" } = false := by
  refine ⟨by decide, by decide⟩

/-- C8 (amended): `isDuplicate` is symmetric for any pair of items that
both carry a non-empty `url` field. -/
theorem isDuplicate_symm_of_urls (a b : Item) (ua ub : String)
    (ha : a.url = some ua) (hb : b.url = some ub) (hua : ua ≠ "") (hub : ub ≠ "") :
    isDuplicate a b = isDuplicate b a := by
  simp only [isDuplicate, ha, hb, jsOrEmpty, jsOr, truthy]
  have t1 : (ua != "") = true := by simp [hua]
  have t2 : (ub != "") = true := by simp [hub]
  simp only [t1, t2, if_true, Option.getD_some, Option.some_bind]
  rw [repoMatchComm]
  by_cases hxy : normalizeUrl ua = normalizeUrl ub
  · rw [hxy, Bool.and_comm (normalizeUrl ub != "") (normalizeUrl ub != "")]
  · have e1 : (normalizeUrl ua == normalizeUrl ub) = false :=
      beq_eq_false_iff_ne.mpr hxy
    have e2 : (normalizeUrl ub == normalizeUrl ua) = false :=
      beq_eq_false_iff_ne.mpr (Ne.symm hxy)
    simp [e1, e2]

/-- Witness for `isDuplicate_symm_of_urls`. -/
theorem isDuplicate_symm_witness :
    isDuplicate { url := some "https://a.example" } { url := some "https://b.example" }
      = isDuplicate { url := some "https://b.example" } { url := some "https://a.example" } :=
  isDuplicate_symm_of_urls { url := some "https://a.example" } { url := some "https://b.example" }
    "https://a.example" "https://b.example" rfl rfl (by decide) (by decide)

/-- A memo hit: if the trimmed URL is already recorded, `validateUrl`
returns `true` with no state change and no network check. -/
theorem validateUrl_hit (gh : String → FetchOutcome) (general : String → Bool)
    (s : List String) (u : String) (hu : u ≠ "")
    (hc : s.contains (jsTrim u) = true) :
    validateUrl gh general s (some u) = (true, s, false) := by
  simp only [validateUrl, truthy, Option.getD_some]
  rw [if_neg (by simp [hu]), if_pos hc]

/-- A memo miss records exactly the trimmed URL. -/
theorem validateUrl_state (gh : String → FetchOutcome) (general : String → Bool)
    (s : List String) (u : String) (hu : u ≠ "")
    (hc : s.contains (jsTrim u) = false) :
    (validateUrl gh general s (some u)).2.1 = s ++ [jsTrim u] := by
  simp only [validateUrl, truthy, Option.getD_some]
  rw [if_neg (by simp [hu]), if_neg (by rw [hc]; simp)]
  split <;> rfl

/-- C1 counterexample: the memo does not return the first-computed result:
a URL whose first check fails (`404`, result `false`) is reported `true` by
the second call. -/
theorem validateUrl_memo_not_result_preserving :
    (validateUrl (fun _ => .response 404 none) (fun _ => false) []
      (some "https://github.com/a/b")).1 = false
  ∧ (validateUrl (fun _ => .response 404 none) (fun _ => false)
      (validateUrl (fun _ => .response 404 none) (fun _ => false) []
        (some "https://github.com/a/b")).2.1
      (some "https://github.com/a/b")).1 = true := by
  refine ⟨by decide, by decide⟩

/-- C1 (amended): after a first call to `validateUrl(u)` for a non-empty
URL `u`, every later call for `u` in the same run returns `true`
(regardless of the first call's result), leaves the memo unchanged, and
does not invoke the underlying network check again. -/
theorem validateUrl_later_calls_true (gh : String → FetchOutcome) (general : String → Bool)
    (s : List String) (u : String) (hu : u ≠ "") :
    validateUrl gh general (validateUrl gh general s (some u)).2.1 (some u)
      = (true, (validateUrl gh general s (some u)).2.1, false) := by
  by_cases hc : s.contains (jsTrim u) = true
  · rw [validateUrl_hit gh general s u hu hc]
    exact validateUrl_hit gh general s u hu hc
  · have hcf : s.contains (jsTrim u) = false := by
      cases h : s.contains (jsTrim u) with
      | false => rfl
      | true => exact absurd h hc
    rw [validateUrl_state gh general s u hu hcf]
    apply validateUrl_hit gh general _ u hu
    simp

/-- Witness for `validateUrl_later_calls_true`. -/
theorem validateUrl_later_calls_true_witness :
    validateUrl (fun _ => FetchOutcome.response 404 none) (fun _ => false)
      ((validateUrl (fun _ => FetchOutcome.response 404 none) (fun _ => false) []
        (some "https://github.com/a/b")).2.1)
      (some "https://github.com/a/b")
    = (true,
       (validateUrl (fun _ => FetchOutcome.response 404 none) (fun _ => false) []
         (some "https://github.com/a/b")).2.1,
       false) :=
  validateUrl_later_calls_true (fun _ => FetchOutcome.response 404 none) (fun _ => false)
    [] "https://github.com/a/b" (by decide)

/-- C4 counterexample: an origin-level fetch failure does NOT always leave
the run continuing with zero items: a failure of the NPM search (or of the
official source pages) propagates out of `collectAllData` and aborts the
run, only the Astro showcase fetch is recovered. -/
theorem collectAllData_fetch_failure_aborts :
    collectAllData (.ok ⟨[], [], [], [], [], []⟩) (.ok []) (.error "npm search failed")
      (.error ()) (fun _ => .thrown) (fun _ => false) = .error "npm search failed"
  ∧ runCompletes (collectAllData (.ok ⟨[], [], [], [], [], []⟩) (.ok [])
      (.error "npm search failed") (.error ()) (fun _ => .thrown) (fun _ => false)) = false
  ∧ collectAllData (.error "official fetch failed") (.ok []) (.ok [])
      (.error ()) (fun _ => .thrown) (fun _ => false) = .error "official fetch failed" := by
  refine ⟨rfl, rfl, rfl⟩

/-- C4 (amended): only the Astro showcase origin is recovered: its fetch
failure contributes zero items and the run continues; the official-source
and NPM origins are not caught. -/
theorem collectAllData_astro_failure_zero_items (official : OfficialData)
    (npm : List RawPkg) (e : String)
    (ai : Except Unit (Option (Nat → Option String)))
    (gh : String → FetchOutcome) (general : String → Bool) :
    collectAllData (.ok official) (.error e) (.ok npm) ai gh general
      = Except.ok (collectCore official [] npm ai gh general)
  ∧ runCompletes (collectAllData (.ok official) (.error e) (.ok npm) ai gh general) = true := by
  exact ⟨rfl, rfl⟩

theorem mem_insertSorted (le : Item → Item → Bool) (x a : Item) (l : List Item) :
    a ∈ insertSorted le x l ↔ a = x ∨ a ∈ l := by
  induction l with
  | nil => simp [insertSorted]
  | cons y ys ih =>
    simp only [insertSorted]
    split
    · simp [List.mem_cons]
    · rw [List.mem_cons, ih, List.mem_cons]
      tauto

theorem mem_sortItems (le : Item → Item → Bool) (a : Item) (l : List Item) :
    a ∈ sortItems le l ↔ a ∈ l := by
  induction l with
  | nil => simp [sortItems]
  | cons x xs ih => simp [sortItems, mem_insertSorted, ih]

/-- A theme admitted by the theme-merge step that was not already present
is not a duplicate (by any of the three tests) of any pre-existing theme. -/
theorem mem_mergeNewThemes_not_dup (existing newItems : List Item) (t : Item)
    (ht : t ∈ mergeNewThemes existing newItems) (hnew : t ∉ existing) :
    ∀ ex ∈ existing,
      isDuplicate t ex = false ∧ isSameTitle t ex = false ∧ isLikelySameTheme t ex = false := by
  intro ex hex
  unfold mergeNewThemes at ht
  rw [List.mem_append] at ht
  rcases ht with h | h
  · exact absurd h hnew
  · rw [List.mem_filter] at h
    obtain ⟨-, hp⟩ := h
    rw [Bool.not_eq_true', List.any_eq_false] at hp
    have h3 := hp ex hex
    simp only [Bool.or_eq_true, not_or, Bool.not_eq_true] at h3
    exact ⟨h3.1.1, h3.1.2, h3.2⟩

/-- C2 counterexample: after `collectAllData` completes, the plugin
category can contain two distinct entries that `isDuplicate` judges
duplicates: two NPM packages sharing one homepage are each deduplicated
only against the official items, never against each other. -/
theorem collectAllData_duplicate_new_items :
    collectAllData (.ok ⟨[], [], [], [], [], []⟩) (.ok [])
      (.ok [⟨"starlight-foo", some "Astro Starlight addon", some "https://github.com/a/starlight-foo", none, some []⟩,
            ⟨"starlight-zoo", some "Astro Starlight addon two", some "https://github.com/a/starlight-foo", none, some []⟩])
      (.error ()) (fun _ => .response 200 (some ⟨false⟩)) (fun _ => false)
      = .ok (collectCore ⟨[], [], [], [], [], []⟩ []
          [⟨"starlight-foo", some "Astro Starlight addon", some "https://github.com/a/starlight-foo", none, some []⟩,
           ⟨"starlight-zoo", some "Astro Starlight addon two", some "https://github.com/a/starlight-foo", none, some []⟩]
          (.error ()) (fun _ => .response 200 (some ⟨false⟩)) (fun _ => false))
  ∧ existsDupPair (collectCore ⟨[], [], [], [], [], []⟩ []
      [⟨"starlight-foo", some "Astro Starlight addon", some "https://github.com/a/starlight-foo", none, some []⟩,
       ⟨"starlight-zoo", some "Astro Starlight addon two", some "https://github.com/a/starlight-foo", none, some []⟩]
      (.error ()) (fun _ => .response 200 (some ⟨false⟩)) (fun _ => false)).plugins = true := by
  refine ⟨rfl, by decide⟩

/-- C2 (amended): after the pipeline completes, every theme entry that was
not already in the official theme list is not a duplicate — by
`isDuplicate`, `isSameTitle` or `isLikelySameTheme` — of any pre-existing
official theme; the invariant is only enforced between new items and
pre-existing entries, not among new items themselves. -/
theorem collectCore_new_theme_not_dup (official : OfficialData) (astro : List Item)
    (npm : List RawPkg) (ai : Except Unit (Option (Nat → Option String)))
    (gh : String → FetchOutcome) (general : String → Bool) (t : Item)
    (ht : t ∈ (collectCore official astro npm ai gh general).themes)
    (hnew : t ∉ official.themes) :
    ∀ ex ∈ official.themes,
      isDuplicate t ex = false ∧ isSameTitle t ex = false ∧ isLikelySameTheme t ex = false := by
  obtain ⟨newItems, hni⟩ : ∃ ni, (collectCore official astro npm ai gh general).themes
      = sortItems keyLe (mergeNewThemes official.themes ni) := ⟨_, rfl⟩
  rw [hni, mem_sortItems] at ht
  exact mem_mergeNewThemes_not_dup official.themes newItems t ht hnew

/-- Witness for `collectCore_new_theme_not_dup` on a concrete run: an NPM
theme merged next to the pre-existing official theme "Nova". -/
theorem collectCore_new_theme_not_dup_witness :
    isDuplicate
        { title := some "starlight-theme-galaxy", url := some "https://github.com/g/starlight-theme-galaxy", description := some "Astro Starlight theme" }
        { title := some "Nova", url := some "https://nova.dev", description := some "A theme" } = false
  ∧ isSameTitle
        { title := some "starlight-theme-galaxy", url := some "https://github.com/g/starlight-theme-galaxy", description := some "Astro Starlight theme" }
        { title := some "Nova", url := some "https://nova.dev", description := some "A theme" } = false
  ∧ isLikelySameTheme
        { title := some "starlight-theme-galaxy", url := some "https://github.com/g/starlight-theme-galaxy", description := some "Astro Starlight theme" }
        { title := some "Nova", url := some "https://nova.dev", description := some "A theme" } = false :=
  collectCore_new_theme_not_dup
    ⟨[], [{ title := some "Nova", url := some "https://nova.dev", description := some "A theme" }], [], [], [], []⟩
    [] [⟨"starlight-theme-galaxy", some "Astro Starlight theme", some "https://github.com/g/starlight-theme-galaxy", none, some []⟩]
    (.error ()) (fun _ => .response 200 (some ⟨false⟩)) (fun _ => false)
    { title := some "starlight-theme-galaxy", url := some "https://github.com/g/starlight-theme-galaxy", description := some "Astro Starlight theme" }
    (by decide) (by decide)
    { title := some "Nova", url := some "https://nova.dev", description := some "A theme" }
    (by decide)

end UpdateList
